import Mathlib

/-!
Shallow embedding of the settings-resolution and template-personalization
core of `ciftify/bin/cifti_vis_fmri.py`.

Python strings are modelled as Lean `String`; the file system as a
predicate `String → Bool` (does a path exist); the OS call
`os.path.realpath` as an arbitrary function parameter `realpath : String → String`
(its symlink resolution is outside the program); the `os.path` helpers
`join`, `dirname`, `basename`, `relpath` are embedded below following the
CPython `posixpath` implementations; `str.replace` is embedded as a
left-to-right, non-overlapping replacement of every occurrence.
External tool invocations (`wb_command` subprocess calls) are recorded as
lists of argument vectors rather than executed.
-/

namespace CiftiVisFmri

/-- Left-to-right, non-overlapping replacement of every occurrence of `pat`
by `rep` in a character list, mirroring Python `str.replace` for a
non-empty pattern (the program only ever replaces non-empty tokens).
Structural recursion on a fuel counter so the kernel can evaluate it; the
fuel is always at least the length of the remaining list, so the `0` case
is only ever reached on the empty list. -/
def replaceFuel (pat rep : List Char) : Nat → List Char → List Char
  | 0, l => l
  | _ + 1, [] => []
  | fuel + 1, c :: rest =>
    if pat ≠ [] ∧ pat.isPrefixOf (c :: rest) then
      rep ++ replaceFuel pat rep fuel ((c :: rest).drop pat.length)
    else
      c :: replaceFuel pat rep fuel rest

/-- Python `s.replace(pat, rep)` (all occurrences, scanning left to right). -/
def strReplace (s pat rep : String) : String :=
  ⟨replaceFuel pat.data rep.data s.data.length s.data⟩

/-- Does `pat` occur as a contiguous substring of the character list? -/
def containsTok (pat : List Char) : List Char → Bool
  | [] => pat.isEmpty
  | c :: rest => pat.isPrefixOf (c :: rest) || containsTok pat rest

/-- Does token `pat` occur as a contiguous substring of `s`? -/
def strContains (s pat : String) : Bool :=
  containsTok pat.data s.data

/-- Does the string start with the path separator? (`b.startswith(sep)` in
CPython `posixpath.join`.) -/
def startsWithSlash (s : String) : Bool :=
  match s.data with
  | [] => false
  | c :: _ => c = '/'

/-- Does the string end with the path separator? (`path.endswith(sep)` in
CPython `posixpath.join`.) -/
def endsWithSlash (s : String) : Bool :=
  match s.data.getLast? with
  | some c => c = '/'
  | none => false

/-- One step of CPython `posixpath.join`: absolute second component wins;
a separator is inserted unless the accumulator is empty or already ends
with one. -/
def pyJoin2 (path b : String) : String :=
  if startsWithSlash b then b
  else if path = "" then path ++ b
  else if endsWithSlash path then path ++ b
  else path ++ "/" ++ b

/-- CPython `os.path.join(a, *rest)` for POSIX paths. -/
def pyJoin (a : String) (rest : List String) : String :=
  rest.foldl pyJoin2 a

/-- CPython `posixpath.basename`: everything after the last separator. -/
def pyBasename (p : String) : String :=
  ⟨(p.data.reverse.takeWhile (fun c => c ≠ '/')).reverse⟩

/-- CPython `posixpath.dirname`: everything up to and excluding the last
separator, with trailing separators stripped unless the head is all
separators. -/
def pyDirname (p : String) : String :=
  let head := (p.data.reverse.dropWhile (fun c => c ≠ '/')).reverse
  if head.all (fun c => c = '/') then ⟨head⟩
  else ⟨(head.reverse.dropWhile (fun c => c = '/')).reverse⟩

/-- Split a character list at separators, accumulating the current
component in reverse (helper for `splitComponents`). -/
def splitOnSlashAux : List Char → List Char → List (List Char)
  | acc, [] => [acc.reverse]
  | acc, c :: rest =>
    if c = '/' then acc.reverse :: splitOnSlashAux [] rest
    else splitOnSlashAux (c :: acc) rest

/-- Split an (absolute, already normalized) path into its non-empty
components, as `[x for x in p.split(sep) if x]` does inside
CPython `posixpath.relpath`. -/
def splitComponents (p : String) : List String :=
  ((splitOnSlashAux [] p.data).map (fun l => (⟨l⟩ : String))).filter
    (fun s => s ≠ "")

/-- Length of the longest common prefix of two component lists
(`posixpath.commonprefix` on split lists). -/
def commonPrefixLen : List String → List String → Nat
  | a :: as, b :: bs => if a = b then commonPrefixLen as bs + 1 else 0
  | _, _ => 0

/-- Join a list of components with the path separator
(`posixpath.join(*rel_list)` on relative components). -/
def joinWithSlash : List String → String
  | [] => ""
  | [x] => x
  | x :: y :: xs => x ++ "/" ++ joinWithSlash (y :: xs)

/-- CPython `posixpath.relpath(path, start)` for absolute, normalized
inputs (the program only calls it on a `realpath` result and on the
directory of the scene file). -/
def pyRelpath (path start : String) : String :=
  let pl := splitComponents path
  let sl := splitComponents start
  let i := commonPrefixLen sl pl
  let rel := List.replicate (sl.length - i) ".." ++ pl.drop i
  if rel = [] then "." else joinWithSlash rel

/-- Outcome of a settings-resolution step. `ok` is a normal return;
`missingInput` records the `logger.error(msg)` followed by `sys.exit(code)`
pattern the program uses for a missing required input (the spec's
MissingInputError); `nameError` records an uncaught Python `NameError`
raised when an unbound name is evaluated. -/
inductive PyOutcome (α : Type) where
  | ok (val : α)
  | missingInput (logMsg : String) (exitCode : Nat)
  | nameError (unboundName : String)
  deriving DecidableEq, Repr

/-- The fields of `UserSettings` that the functions under study read.
`fwhm` is kept as the string docopt delivers (the program never converts
it before interpolating it into file names). -/
structure UserSettings where
  hcp_dir : String
  subject : String
  fmri_name : String
  fwhm : String
  dtseries_s0 : String
  surf_mesh : String
  deriving DecidableEq, Repr

/-- Embedding of `UserSettings.get_dtseries_s0` (cifti_vis_fmri.py lines
77-84): build the expected unsmoothed path; if it does not exist, log an
error naming the path and exit with status 1, otherwise return it. -/
def get_dtseries_s0 (fs : String → Bool)
    (hcp_dir subject fmri_name : String) : PyOutcome String :=
  let dtseries_s0 := pyJoin hcp_dir [subject, "MNINonLinear", "Results",
      fmri_name, fmri_name ++ "_Atlas_s0.dtseries.nii"]
  if fs dtseries_s0 then PyOutcome.ok dtseries_s0
  else PyOutcome.missingInput
      ("Expected fmri file " ++ dtseries_s0 ++ " not found.") 1

/-- Embedding of `UserSettings.get_fwhm` (cifti_vis_fmri.py lines 86-99).
When `--SmoothingFWHM` is truthy, line 89 evaluates the bare names
`hcp_dir`, `subject`, `fmri_name`, none of which is bound in the method's
local scope, the module's global scope, or builtins (the method never
assigns them and the module defines no such globals); CPython therefore
raises `NameError: name 'hcp_dir' is not defined` before the intended
existence check can run. When `--SmoothingFWHM` is falsy, the method
returns the `--smooth-conn` value. The file system is a parameter because
the intended code would consult it, but no reachable branch does. -/
def get_fwhm (fs : String → Bool) (smoothingFWHM : Option String)
    (smoothConn : String) : PyOutcome String :=
  match smoothingFWHM with
  | some v =>
    if v = "" then PyOutcome.ok smoothConn
    else PyOutcome.nameError "hcp_dir"
  | none => PyOutcome.ok smoothConn

/-- Embedding of `replace_dir_references` (cifti_vis_fmri.py lines
202-212): canonicalize `dir_path` through `os.path.realpath`, replace
`<pfx>_ABSPATH` with the canonical directory, then replace `<pfx>_RELPATH`
with that directory expressed relative to the directory containing the
scene file (which is used as given, not canonicalized). -/
def replace_dir_references (realpath : String → String)
    (template_contents pfx dir_path scene_file : String) : String :=
  let file_dirname := realpath dir_path
  let txt := strReplace template_contents (pfx ++ "_ABSPATH") file_dirname
  strReplace txt (pfx ++ "_RELPATH")
    (pyRelpath file_dirname (pyDirname scene_file))

/-- Embedding of `replace_all_references` (cifti_vis_fmri.py lines
214-219): apply `replace_dir_references` to the containing directory of
`file_path`, then replace `<pfx>_BASE` with the file's base name. -/
def replace_all_references (realpath : String → String)
    (template_contents pfx file_path scene_file : String) : String :=
  let txt := replace_dir_references realpath template_contents pfx
      (pyDirname file_path) scene_file
  strReplace txt (pfx ++ "_BASE") (pyBasename file_path)

/-- Embedding of `modify_template_contents` (cifti_vis_fmri.py lines
176-200): the full sequence of substitutions that personalizes a scene
template. -/
def modify_template_contents (realpath : String → String)
    (template_contents : String) (user_settings : UserSettings)
    (scene_file sbref_nii dtseries_sm : String) : String :=
  let surfs_dir := pyJoin user_settings.hcp_dir [user_settings.subject,
      "MNINonLinear", user_settings.surf_mesh]
  let T1w_nii := pyJoin user_settings.hcp_dir [user_settings.subject,
      "MNINonLinear", "T1w.nii.gz"]
  let dtseries_sm_base := pyBasename dtseries_sm
  let dtseries_sm_base_noext := strReplace dtseries_sm_base ".dtseries.nii" ""
  let txt := strReplace template_contents "SURFS_SUBJECT" user_settings.subject
  let txt := strReplace txt "SURFS_MESHNAME" user_settings.surf_mesh
  let txt := replace_dir_references realpath txt "SURFSDIR" surfs_dir scene_file
  let txt := replace_all_references realpath txt "T1W" T1w_nii scene_file
  let txt := replace_all_references realpath txt "SBREF" sbref_nii scene_file
  let txt := replace_all_references realpath txt "S0DTSERIES"
      user_settings.dtseries_s0 scene_file
  let txt := replace_dir_references realpath txt "SMDTSERIES"
      (pyDirname dtseries_sm) scene_file
  strReplace txt "SMDTSERIES_BASENOEXT" dtseries_sm_base_noext

/-- The smoothed-file name convention `<run>_Atlas_s<width>.dtseries.nii`
shared by the precomputed path and the scratch path in
`get_smoothed_dtseries_file`. -/
def smoothedName (fmri_name fwhm : String) : String :=
  fmri_name ++ "_Atlas_s" ++ fwhm ++ ".dtseries.nii"

/-- The canonical precomputed smoothed-file path
`<root>/<subject>/MNINonLinear/Results/<run>/<run>_Atlas_s<width>.dtseries.nii`
(cifti_vis_fmri.py lines 248-251). -/
def pre_dtseries_sm (s : UserSettings) : String :=
  pyJoin s.hcp_dir [s.subject, "MNINonLinear", "Results", s.fmri_name,
      smoothedName s.fmri_name s.fwhm]

/-- Embedding of `get_smoothed_dtseries_file` (cifti_vis_fmri.py lines
243-272). Returns the chosen path together with the list of external
commands run (each an argument vector). `sigmaOf` stands for
`str(ciftify.utilities.FWHM2Sigma(fwhm))`, the decimal rendering of the
Gaussian sigma for the given width; it is an opaque collaborator here
because only the fact that the same string is passed for both smoothing
dimensions matters to the control flow. -/
def get_smoothed_dtseries_file (sigmaOf : String → String)
    (fs : String → Bool) (s : UserSettings) (temp_dir : String) :
    String × List (List String) :=
  let pre := pre_dtseries_sm s
  if fs pre then (pre, [])
  else
    let dtseries_sm := pyJoin temp_dir [smoothedName s.fmri_name s.fwhm]
    let sigma := sigmaOf s.fwhm
    let surfs_dir := pyJoin s.hcp_dir [s.subject, "MNINonLinear", s.surf_mesh]
    (dtseries_sm,
      [["wb_command", "-cifti-smoothing", s.dtseries_s0, sigma, sigma,
        "COLUMN", dtseries_sm, "-left-surface",
        pyJoin surfs_dir [s.subject ++ ".L.midthickness." ++ s.surf_mesh ++
          ".surf.gii"],
        "-right-surface",
        pyJoin surfs_dir [s.subject ++ ".R.midthickness." ++ s.surf_mesh ++
          ".surf.gii"]]])

/-- Modelled from the spec: `ciftify.utilities.FWHM2Sigma` is part of this
repository but its source is not included here; the spec states the
standard Gaussian conversion sigma equals FWHM divided by twice the square
root of twice the natural log of 2. -/
noncomputable def FWHM2Sigma (fwhm : ℝ) : ℝ :=
  fwhm / (2 * Real.sqrt (2 * Real.log 2))

/-- Directory-reference substitution exactly as the spec words it: the
`ABSPATH` value is the symlink-resolved canonical form of the directory,
the `RELPATH` value is `relpath(realpath(dir_path), dirname(scene_file))`,
and the scene file's own directory is used as given. Written from the
spec's words, to be compared with `replace_dir_references` from the
source. -/
def dirSubstSpec (realpath : String → String)
    (text pfx dir_path scene_file : String) : String :=
  strReplace (strReplace text (pfx ++ "_ABSPATH") (realpath dir_path))
    (pfx ++ "_RELPATH")
    (pyRelpath (realpath dir_path) (pyDirname scene_file))

/-- A concrete `os.path.realpath` behaviour in which `/a/b` is a symlink
resolving to `/x/y` and `/a/out` is a symlink resolving to `/z`; used to
separate "uses the canonical directory" from "uses the directory as
given". -/
def symlinkRealpath (p : String) : String :=
  if p = "/a/b" then "/x/y" else if p = "/a/out" then "/z" else p

/-- The literal placeholder tokens covered by the engine's
template-personalization pass `modify_template_contents`
(cifti_vis_fmri.py lines 191-198), in substitution order. -/
def engineTokens : List String :=
  ["SURFS_SUBJECT", "SURFS_MESHNAME",
   "SURFSDIR_ABSPATH", "SURFSDIR_RELPATH",
   "T1W_ABSPATH", "T1W_RELPATH", "T1W_BASE",
   "SBREF_ABSPATH", "SBREF_RELPATH", "SBREF_BASE",
   "S0DTSERIES_ABSPATH", "S0DTSERIES_RELPATH", "S0DTSERIES_BASE",
   "SMDTSERIES_ABSPATH", "SMDTSERIES_RELPATH", "SMDTSERIES_BASENOEXT"]

/-! ## Supporting lemmas -/

theorem replaceFuel_of_not_contains (pat rep : List Char) (fuel : Nat)
    (l : List Char) (h : containsTok pat l = false) :
    replaceFuel pat rep fuel l = l := by
  induction fuel generalizing l with
  | zero => rfl
  | succ fuel ih =>
    cases l with
    | nil => rfl
    | cons c rest =>
      rw [containsTok, Bool.or_eq_false_iff] at h
      rw [replaceFuel, if_neg (by simp [h.1]), ih rest h.2]

/-- A token absent from the text makes the substitution a no-op. -/
theorem strReplace_of_not_contains (s pat rep : String)
    (h : strContains s pat = false) : strReplace s pat rep = s := by
  unfold strReplace
  rw [replaceFuel_of_not_contains pat.data rep.data s.data.length s.data h]

theorem data_ne_nil_of_ne_empty (s : String) (h : s ≠ "") : s.data ≠ [] := by
  intro hd
  exact h (String.ext hd)

theorem isPrefixOf_self (l : List Char) : l.isPrefixOf l = true := by
  induction l with
  | nil => rfl
  | cons c rest ih => simp [List.isPrefixOf, ih]

theorem replaceFuel_nil (pat rep : List Char) (fuel : Nat) :
    replaceFuel pat rep fuel [] = [] := by
  cases fuel <;> rfl

/-- Replacing a non-empty text by a pattern equal to the whole text yields
exactly the replacement. -/
theorem strReplace_whole (s rep : String) (h : s ≠ "") :
    strReplace s s rep = rep := by
  unfold strReplace
  cases hd : s.data with
  | nil => exact absurd hd (data_ne_nil_of_ne_empty s h)
  | cons c rest =>
    rw [List.length_cons, replaceFuel,
      if_pos ⟨List.cons_ne_nil c rest, isPrefixOf_self (c :: rest)⟩,
      List.drop_length, replaceFuel_nil, List.append_nil]

theorem endsWithSlash_append (a b : String) (hb : b ≠ "") :
    endsWithSlash (a ++ b) = endsWithSlash b := by
  unfold endsWithSlash
  rw [String.data_append,
    List.getLast?_append_of_ne_nil a.data (data_ne_nil_of_ne_empty b hb)]

theorem startsWithSlash_append (a b : String) (ha : a ≠ "") :
    startsWithSlash (a ++ b) = startsWithSlash a := by
  unfold startsWithSlash
  rw [String.data_append]
  cases hd : a.data with
  | nil => exact absurd hd (data_ne_nil_of_ne_empty a ha)
  | cons c rest => rfl

theorem append_slash_ne_empty (a b : String) : a ++ "/" ++ b ≠ "" := by
  intro h
  have hd := congrArg String.data h
  simp only [String.data_append,
    show ("/" : String).data = ['/'] from rfl,
    show ("" : String).data = [] from rfl, List.append_assoc,
    List.append_eq_nil] at hd
  exact absurd hd.2.1 (by simp)

theorem pyJoin2_clean (a b : String) (ha : a ≠ "")
    (hae : endsWithSlash a = false) (hb : startsWithSlash b = false) :
    pyJoin2 a b = a ++ "/" ++ b := by
  unfold pyJoin2
  rw [hb, hae]
  simp [ha]

/-- Joining clean components onto a clean root inserts exactly one
separator at each step: the shape
`<root>/<c1>/<c2>/<c3>/<c4>/<c5>` of the paths the program builds. -/
theorem pyJoin_clean_shape (root c1 c2 c3 c4 c5 : String)
    (hroot : root ≠ "" ∧ endsWithSlash root = false)
    (h1 : c1 ≠ "" ∧ startsWithSlash c1 = false ∧ endsWithSlash c1 = false)
    (h2 : c2 ≠ "" ∧ startsWithSlash c2 = false ∧ endsWithSlash c2 = false)
    (h3 : c3 ≠ "" ∧ startsWithSlash c3 = false ∧ endsWithSlash c3 = false)
    (h4 : c4 ≠ "" ∧ startsWithSlash c4 = false ∧ endsWithSlash c4 = false)
    (h5 : c5 ≠ "" ∧ startsWithSlash c5 = false ∧ endsWithSlash c5 = false) :
    pyJoin root [c1, c2, c3, c4, c5] =
      root ++ "/" ++ c1 ++ "/" ++ c2 ++ "/" ++ c3 ++ "/" ++ c4 ++ "/" ++ c5 := by
  have step : ∀ a b : String, a ≠ "" → endsWithSlash a = false →
      b ≠ "" → startsWithSlash b = false → endsWithSlash b = false →
      pyJoin2 a b = a ++ "/" ++ b ∧ (a ++ "/" ++ b) ≠ "" ∧
        endsWithSlash (a ++ "/" ++ b) = false := by
    intro a b ha hae hb hbs hbe
    refine ⟨pyJoin2_clean a b ha hae hbs, append_slash_ne_empty a b, ?_⟩
    rw [endsWithSlash_append (a ++ "/") b hb]
    exact hbe
  obtain ⟨e1, n1, w1⟩ := step root c1 hroot.1 hroot.2 h1.1 h1.2.1 h1.2.2
  obtain ⟨e2, n2, w2⟩ := step _ c2 n1 w1 h2.1 h2.2.1 h2.2.2
  obtain ⟨e3, n3, w3⟩ := step _ c3 n2 w2 h3.1 h3.2.1 h3.2.2
  obtain ⟨e4, n4, w4⟩ := step _ c4 n3 w3 h4.1 h4.2.1 h4.2.2
  obtain ⟨e5, _, _⟩ := step _ c5 n4 w4 h5.1 h5.2.1 h5.2.2
  show pyJoin2 (pyJoin2 (pyJoin2 (pyJoin2 (pyJoin2 root c1) c2) c3) c4) c5 = _
  rw [e1, e2, e3, e4, e5]

theorem append_ne_empty_right (a b : String) (hb : b ≠ "") : a ++ b ≠ "" := by
  intro h
  have hd := congrArg String.data h
  rw [String.data_append, show ("" : String).data = [] from rfl,
    List.append_eq_nil] at hd
  exact data_ne_nil_of_ne_empty b hb hd.2

theorem isPrefixOf_append_self (l t : List Char) :
    l.isPrefixOf (l ++ t) = true := by
  induction l with
  | nil => simp [List.isPrefixOf]
  | cons c rest ih => simp [List.isPrefixOf, ih]

theorem isPrefixOf_of_append_le (l w z : List Char)
    (h : l.isPrefixOf (w ++ z) = true) (hl : l.length ≤ w.length) :
    l.isPrefixOf w = true := by
  rw [List.isPrefixOf_iff_prefix] at h ⊢
  exact List.prefix_of_prefix_length_le h (List.prefix_append w z) hl

/-- The result of the replacement scan does not depend on the fuel, as
long as the fuel is at least the length of the list. -/
theorem replaceFuel_fuel_ge (pat rep : List Char) :
    ∀ (fuel fuel' : Nat) (l : List Char), l.length ≤ fuel → l.length ≤ fuel' →
      replaceFuel pat rep fuel l = replaceFuel pat rep fuel' l := by
  intro fuel
  induction fuel with
  | zero =>
    intro fuel' l hf _
    rw [List.eq_nil_of_length_eq_zero (Nat.le_zero.mp hf), replaceFuel_nil,
      replaceFuel_nil]
  | succ f ih =>
    intro fuel' l hf hf'
    cases l with
    | nil => rw [replaceFuel_nil, replaceFuel_nil]
    | cons c rest =>
      cases fuel' with
      | zero => simp at hf'
      | succ f' =>
        rw [replaceFuel, replaceFuel]
        by_cases hcond : pat ≠ [] ∧ pat.isPrefixOf (c :: rest)
        · rw [if_pos hcond, if_pos hcond]
          have hplen : 1 ≤ pat.length := by
            cases pat with
            | nil => exact absurd rfl hcond.1
            | cons p ps => simp
          simp only [List.length_cons] at hf hf'
          congr 1
          apply ih
          · simp only [List.length_drop, List.length_cons]
            omega
          · simp only [List.length_drop, List.length_cons]
            omega
        · rw [if_neg hcond, if_neg hcond]
          simp only [List.length_cons] at hf hf'
          congr 1
          apply ih
          · omega
          · omega

/-- Frame property of the replacement scan: around an occurrence of the
pattern preceded by straddle-free text `u` (no occurrence of the pattern
starts inside `u` or overlaps the boundary into the occurrence), exactly
the occurrence is replaced; `u` is emitted unchanged and scanning
continues in the remainder `v`. -/
theorem replaceFuel_append_occurrence (pat rep : List Char) :
    ∀ (u v : List Char) (fuel : Nat), pat ≠ [] →
      containsTok pat (u ++ pat.dropLast) = false →
      (u ++ pat ++ v).length ≤ fuel →
      replaceFuel pat rep fuel (u ++ pat ++ v) =
        u ++ rep ++ replaceFuel pat rep v.length v := by
  intro u
  induction u with
  | nil =>
    intro v fuel hp hu hfuel
    cases pat with
    | nil => exact absurd rfl hp
    | cons p ps =>
      cases fuel with
      | zero => simp at hfuel
      | succ f =>
        simp only [List.nil_append, List.cons_append, List.length_cons,
          List.length_append] at hfuel ⊢
        rw [replaceFuel,
          if_pos ⟨List.cons_ne_nil p ps, isPrefixOf_append_self (p :: ps) v⟩]
        simp only [List.length_cons, List.drop_succ_cons, List.drop_left]
        congr 1
        apply replaceFuel_fuel_ge
        · omega
        · exact le_rfl
  | cons c u' ih =>
    intro v fuel hp hu hfuel
    cases fuel with
    | zero => simp at hfuel
    | succ f =>
      simp only [List.cons_append] at hfuel hu ⊢
      rw [containsTok, Bool.or_eq_false_iff] at hu
      have hplen : 1 ≤ pat.length := List.length_pos.mpr hp
      have hsplit : (u' ++ pat) ++ v =
          (u' ++ pat.dropLast) ++ (pat.getLast hp :: v) := by
        conv_lhs => rw [← List.dropLast_append_getLast hp]
        simp [List.append_assoc]
      rw [replaceFuel, if_neg ?hneg]
      case hneg =>
        intro hcond
        have hpre : pat.isPrefixOf
            ((c :: (u' ++ pat.dropLast)) ++ (pat.getLast hp :: v)) = true := by
          rw [List.cons_append, ← hsplit]
          exact hcond.2
        have hlen : pat.length ≤ (c :: (u' ++ pat.dropLast)).length := by
          simp only [List.length_cons, List.length_append,
            List.length_dropLast]
          omega
        have hin := isPrefixOf_of_append_le pat _ _ hpre hlen
        rw [hu.1] at hin
        exact Bool.noConfusion hin
      rw [ih v f hp hu.2
        (by simp only [List.length_cons, List.length_append] at hfuel ⊢; omega)]

/-- String-level frame property of `str.replace`: replacing a token that
occurs amid arbitrary surrounding text keeps the text before the
occurrence intact and continues the replacement in the text after it. -/
theorem strReplace_frame (u pat v rep : String) (hp : pat ≠ "")
    (hstraddle : containsTok pat.data (u.data ++ pat.data.dropLast) = false) :
    strReplace (u ++ pat ++ v) pat rep = u ++ rep ++ strReplace v pat rep := by
  have hdata : (u ++ pat ++ v).data = u.data ++ pat.data ++ v.data := by
    rw [String.data_append, String.data_append]
  apply String.ext
  rw [show (u ++ rep ++ strReplace v pat rep).data =
        u.data ++ rep.data ++ replaceFuel pat.data rep.data v.data.length v.data
      from by rw [String.data_append, String.data_append]; rfl]
  show replaceFuel pat.data rep.data (u ++ pat ++ v).data.length
      (u ++ pat ++ v).data =
    u.data ++ rep.data ++ replaceFuel pat.data rep.data v.data.length v.data
  rw [hdata]
  exact replaceFuel_append_occurrence pat.data rep.data u.data v.data
    (u.data ++ pat.data ++ v.data).length (data_ne_nil_of_ne_empty pat hp)
    hstraddle le_rfl

/-! ## Claim theorems -/

/-- C1 (code bug): when no explicit width is requested, `get_fwhm` returns
the default `--smooth-conn` width; but when an explicit `--SmoothingFWHM`
width is requested the method does not return the default width (nor any
width): evaluating the unbound name `hcp_dir` on line 89 raises an
uncaught NameError, so the claimed "return the default regardless"
behaviour is broken by a slip in the code (the method body was clearly
meant to read `self.hcp_dir`, `self.subject`, `self.fmri_name` as its
sibling `get_dtseries_s0` does). -/
theorem get_fwhm_default_return_vs_nameError :
    (∀ (fs : String → Bool) (conn : String),
      get_fwhm fs none conn = PyOutcome.ok conn) ∧
    (∀ (fs : String → Bool) (conn : String),
      get_fwhm fs (some "8") conn = PyOutcome.nameError "hcp_dir" ∧
      ∀ w, get_fwhm fs (some "8") conn ≠ PyOutcome.ok w) := by
  refine ⟨fun fs conn => rfl, fun fs conn => ⟨rfl, ?_⟩⟩
  intro w h
  rw [show get_fwhm fs (some "8") conn = PyOutcome.nameError "hcp_dir" from
    rfl] at h
  exact PyOutcome.noConfusion h

/-- C2 (code bug): with an explicit width requested, settings resolution
does not fail with the logged MissingInputError exit the claim (and the
code's own error message on lines 94-96) intends: whatever the file
system contains, line 89 raises an uncaught NameError on the unbound name
`hcp_dir` before the expected-path string is even built, so no
MissingInputError outcome is reachable from this branch. -/
theorem get_fwhm_explicit_missing_file_outcome (fs : String → Bool)
    (conn : String) :
    get_fwhm fs (some "8") conn = PyOutcome.nameError "hcp_dir" ∧
    ∀ msg code, get_fwhm fs (some "8") conn ≠ PyOutcome.missingInput msg code := by
  refine ⟨rfl, ?_⟩
  intro msg code h
  rw [show get_fwhm fs (some "8") conn = PyOutcome.nameError "hcp_dir" from
    rfl] at h
  exact PyOutcome.noConfusion h

/-- C5: `get_dtseries_s0` constructs
`<root>/<subject>/MNINonLinear/Results/<run>/<run>_Atlas_s0.dtseries.nii`;
it returns that path when it exists, and otherwise produces the
missing-input failure: a logged message containing the expected path and
a non-zero (namely 1) process exit, with no retry. -/
theorem get_dtseries_s0_resolution (fs : String → Bool)
    (root subject run : String)
    (hroot : root ≠ "" ∧ endsWithSlash root = false)
    (hsub : subject ≠ "" ∧ startsWithSlash subject = false ∧
      endsWithSlash subject = false)
    (hrun : run ≠ "" ∧ startsWithSlash run = false ∧
      endsWithSlash run = false) :
    pyJoin root [subject, "MNINonLinear", "Results", run,
        run ++ "_Atlas_s0.dtseries.nii"] =
      root ++ "/" ++ subject ++ "/" ++ "MNINonLinear" ++ "/" ++ "Results" ++
        "/" ++ run ++ "/" ++ (run ++ "_Atlas_s0.dtseries.nii") ∧
    (fs (pyJoin root [subject, "MNINonLinear", "Results", run,
        run ++ "_Atlas_s0.dtseries.nii"]) = true →
      get_dtseries_s0 fs root subject run =
        PyOutcome.ok (pyJoin root [subject, "MNINonLinear", "Results", run,
          run ++ "_Atlas_s0.dtseries.nii"])) ∧
    (fs (pyJoin root [subject, "MNINonLinear", "Results", run,
        run ++ "_Atlas_s0.dtseries.nii"]) = false →
      get_dtseries_s0 fs root subject run =
        PyOutcome.missingInput
          ("Expected fmri file " ++
            pyJoin root [subject, "MNINonLinear", "Results", run,
              run ++ "_Atlas_s0.dtseries.nii"] ++ " not found.") 1 ∧
      (1 : Nat) ≠ 0) := by
  refine ⟨?_, ?_, ?_⟩
  · exact pyJoin_clean_shape root subject "MNINonLinear" "Results" run
      (run ++ "_Atlas_s0.dtseries.nii") hroot hsub (by decide) (by decide) hrun
      ⟨append_ne_empty_right run "_Atlas_s0.dtseries.nii" (by decide),
        by rw [startsWithSlash_append run _ hrun.1]; exact hrun.2.1,
        by rw [endsWithSlash_append run _ (by decide)]; decide⟩
  · intro h
    simp only [get_dtseries_s0]
    rw [if_pos h]
  · intro h
    refine ⟨?_, by decide⟩
    simp only [get_dtseries_s0]
    rw [if_neg (by simp [h])]

/-- Closed instance of `get_dtseries_s0_resolution` at concrete inputs. -/
theorem get_dtseries_s0_resolution_witness :
    get_dtseries_s0
        (fun p =>
          p == "/data/sub01/MNINonLinear/Results/rest/rest_Atlas_s0.dtseries.nii")
        "/data" "sub01" "rest" =
      PyOutcome.ok
        "/data/sub01/MNINonLinear/Results/rest/rest_Atlas_s0.dtseries.nii" ∧
    get_dtseries_s0 (fun _ => false) "/data" "sub01" "rest" =
      PyOutcome.missingInput
        ("Expected fmri file /data/sub01/MNINonLinear/Results/rest/rest_Atlas_s0.dtseries.nii not found.")
        1 := by
  constructor
  · exact ((get_dtseries_s0_resolution
      (fun p =>
        p == "/data/sub01/MNINonLinear/Results/rest/rest_Atlas_s0.dtseries.nii")
      "/data" "sub01" "rest" (by decide) (by decide) (by decide)).2.1
      (by decide)).trans (by decide)
  · exact (((get_dtseries_s0_resolution (fun _ => false)
      "/data" "sub01" "rest" (by decide) (by decide) (by decide)).2.2
      rfl).1).trans (by decide)

/-- C4: if the canonical precomputed smoothed path exists,
`get_smoothed_dtseries_file` returns it unchanged and runs no external
command; otherwise it returns the scratch path built from the same naming
convention `<run>_Atlas_s<width>.dtseries.nii` rooted in the scratch
directory, after invoking exactly one external smoothing command. -/
theorem get_smoothed_dtseries_file_cases (sigmaOf : String → String)
    (fs : String → Bool) (s : UserSettings) (temp_dir : String) :
    (fs (pre_dtseries_sm s) = true →
      get_smoothed_dtseries_file sigmaOf fs s temp_dir =
        (pre_dtseries_sm s, [])) ∧
    (fs (pre_dtseries_sm s) = false →
      (get_smoothed_dtseries_file sigmaOf fs s temp_dir).1 =
        pyJoin temp_dir [smoothedName s.fmri_name s.fwhm] ∧
      pre_dtseries_sm s =
        pyJoin2
          (pyJoin s.hcp_dir [s.subject, "MNINonLinear", "Results", s.fmri_name])
          (smoothedName s.fmri_name s.fwhm) ∧
      ∃ cmd, (get_smoothed_dtseries_file sigmaOf fs s temp_dir).2 = [cmd] ∧
        cmd.head? = some "wb_command" ∧
        cmd.get? 1 = some "-cifti-smoothing") := by
  constructor
  · intro h
    simp only [get_smoothed_dtseries_file]
    rw [if_pos h]
  · intro h
    have hcmds : (get_smoothed_dtseries_file sigmaOf fs s temp_dir).2 =
        [["wb_command", "-cifti-smoothing", s.dtseries_s0, sigmaOf s.fwhm,
          sigmaOf s.fwhm, "COLUMN",
          pyJoin temp_dir [smoothedName s.fmri_name s.fwhm], "-left-surface",
          pyJoin (pyJoin s.hcp_dir [s.subject, "MNINonLinear", s.surf_mesh])
            [s.subject ++ ".L.midthickness." ++ s.surf_mesh ++ ".surf.gii"],
          "-right-surface",
          pyJoin (pyJoin s.hcp_dir [s.subject, "MNINonLinear", s.surf_mesh])
            [s.subject ++ ".R.midthickness." ++ s.surf_mesh ++
              ".surf.gii"]]] := by
      simp only [get_smoothed_dtseries_file]
      rw [if_neg (by simp [h])]
    refine ⟨?_, rfl, _, hcmds, rfl, rfl⟩
    simp only [get_smoothed_dtseries_file]
    rw [if_neg (by simp [h])]

/-- Closed instance of `get_smoothed_dtseries_file_cases` at concrete
inputs: with the precomputed file present nothing is run and the
precomputed path is returned; with it absent the scratch path is returned
and the external smoothing command is issued. -/
theorem get_smoothed_dtseries_file_cases_witness :
    get_smoothed_dtseries_file (fun _ => "3.39")
        (fun p =>
          p == "/data/sub01/MNINonLinear/Results/rest/rest_Atlas_s8.dtseries.nii")
        ⟨"/data", "sub01", "rest", "8",
          "/data/sub01/MNINonLinear/Results/rest/rest_Atlas_s0.dtseries.nii",
          "32k_fs_LR"⟩ "/tmp/scratch" =
      ("/data/sub01/MNINonLinear/Results/rest/rest_Atlas_s8.dtseries.nii",
        []) ∧
    (get_smoothed_dtseries_file (fun _ => "3.39") (fun _ => false)
        ⟨"/data", "sub01", "rest", "8",
          "/data/sub01/MNINonLinear/Results/rest/rest_Atlas_s0.dtseries.nii",
          "32k_fs_LR"⟩ "/tmp/scratch").1 =
      "/tmp/scratch/rest_Atlas_s8.dtseries.nii" ∧
    (get_smoothed_dtseries_file (fun _ => "3.39") (fun _ => false)
        ⟨"/data", "sub01", "rest", "8",
          "/data/sub01/MNINonLinear/Results/rest/rest_Atlas_s0.dtseries.nii",
          "32k_fs_LR"⟩ "/tmp/scratch").2 ≠ [] := by
  refine ⟨?_, ?_, ?_⟩
  · exact ((get_smoothed_dtseries_file_cases (fun _ => "3.39") _ _ _).1
      (by decide)).trans (by decide)
  · exact ((get_smoothed_dtseries_file_cases (fun _ => "3.39") _ _ _).2
      rfl).1.trans (by decide)
  · obtain ⟨cmd, hc, -, -⟩ :=
      ((get_smoothed_dtseries_file_cases (fun _ => "3.39") (fun _ => false)
        ⟨"/data", "sub01", "rest", "8",
          "/data/sub01/MNINonLinear/Results/rest/rest_Atlas_s0.dtseries.nii",
          "32k_fs_LR"⟩ "/tmp/scratch").2 rfl).2.2
    rw [hc]
    simp

/-- C6 counterexample: when no precomputed file exists, a second call
within the same scratch-directory lifetime still re-invokes the external
smoothing tool even though the prior scratch file already exists at the
same scratch path: the function only ever checks the precomputed path,
never the scratch path. The file-system predicate used for the second
call marks exactly the scratch path returned by the first call as
existing, and marks the precomputed path as absent. -/
theorem get_smoothed_reinvokes_despite_scratch_file :
    (fun p => p == "/tmp/scratch/rest_Atlas_s8.dtseries.nii")
        ((get_smoothed_dtseries_file (fun _ => "3.39") (fun _ => false)
          ⟨"/data", "sub01", "rest", "8",
            "/data/sub01/MNINonLinear/Results/rest/rest_Atlas_s0.dtseries.nii",
            "32k_fs_LR"⟩ "/tmp/scratch").1) = true ∧
    (fun p => p == "/tmp/scratch/rest_Atlas_s8.dtseries.nii")
        (pre_dtseries_sm
          ⟨"/data", "sub01", "rest", "8",
            "/data/sub01/MNINonLinear/Results/rest/rest_Atlas_s0.dtseries.nii",
            "32k_fs_LR"⟩) = false ∧
    (get_smoothed_dtseries_file (fun _ => "3.39")
        (fun p => p == "/tmp/scratch/rest_Atlas_s8.dtseries.nii")
        ⟨"/data", "sub01", "rest", "8",
          "/data/sub01/MNINonLinear/Results/rest/rest_Atlas_s0.dtseries.nii",
          "32k_fs_LR"⟩ "/tmp/scratch").2 ≠ [] := by
  refine ⟨by decide, by decide, by decide⟩

/-- C6 amended: with no precomputed file, two calls with the same inputs
(under any two file-system states in which the precomputed path is
absent, in particular before and after the first call created the scratch
file) return the same path and issue the identical external command list,
so the derivative content produced by the deterministic external tool is
the same; but the second call does re-invoke the external smoothing tool,
because the function never consults the scratch path. -/
theorem get_smoothed_repeat_same_output (sigmaOf : String → String)
    (fs fs' : String → Bool) (s : UserSettings) (temp_dir : String)
    (h : fs (pre_dtseries_sm s) = false)
    (h' : fs' (pre_dtseries_sm s) = false) :
    get_smoothed_dtseries_file sigmaOf fs s temp_dir =
      get_smoothed_dtseries_file sigmaOf fs' s temp_dir ∧
    (get_smoothed_dtseries_file sigmaOf fs' s temp_dir).2 ≠ [] := by
  constructor
  · simp only [get_smoothed_dtseries_file]
    rw [if_neg (by simp [h]), if_neg (by simp [h'])]
  · simp only [get_smoothed_dtseries_file]
    rw [if_neg (by simp [h'])]
    simp

/-- Closed instance of `get_smoothed_repeat_same_output`: first call under
an empty file system, second call after the scratch file exists. -/
theorem get_smoothed_repeat_same_output_witness :
    get_smoothed_dtseries_file (fun _ => "3.39") (fun _ => false)
        ⟨"/data", "sub01", "rest", "8",
          "/data/sub01/MNINonLinear/Results/rest/rest_Atlas_s0.dtseries.nii",
          "32k_fs_LR"⟩ "/tmp/scratch" =
      get_smoothed_dtseries_file (fun _ => "3.39")
        (fun p => p == "/tmp/scratch/rest_Atlas_s8.dtseries.nii")
        ⟨"/data", "sub01", "rest", "8",
          "/data/sub01/MNINonLinear/Results/rest/rest_Atlas_s0.dtseries.nii",
          "32k_fs_LR"⟩ "/tmp/scratch" ∧
    (get_smoothed_dtseries_file (fun _ => "3.39")
        (fun p => p == "/tmp/scratch/rest_Atlas_s8.dtseries.nii")
        ⟨"/data", "sub01", "rest", "8",
          "/data/sub01/MNINonLinear/Results/rest/rest_Atlas_s0.dtseries.nii",
          "32k_fs_LR"⟩ "/tmp/scratch").2 ≠ [] :=
  get_smoothed_repeat_same_output (fun _ => "3.39") (fun _ => false)
    (fun p => p == "/tmp/scratch/rest_Atlas_s8.dtseries.nii")
    ⟨"/data", "sub01", "rest", "8",
      "/data/sub01/MNINonLinear/Results/rest/rest_Atlas_s0.dtseries.nii",
      "32k_fs_LR"⟩ "/tmp/scratch" rfl (by decide)

theorem sqrtTwoLogTwo_bounds :
    (1.17741 : ℝ) < Real.sqrt (2 * Real.log 2) ∧
    Real.sqrt (2 * Real.log 2) < 1.17742 := by
  constructor
  · rw [Real.lt_sqrt (by norm_num)]
    nlinarith [Real.log_two_gt_d9]
  · rw [Real.sqrt_lt' (by norm_num)]
    nlinarith [Real.log_two_lt_d9]

/-- C7: the FWHM-to-sigma conversion is the deterministic function
sigma = FWHM / (2 * sqrt (2 * ln 2)), so FWHM 8 gives sigma within 0.001
of 3.3973; and the smoothing command passes the rendered sigma string
identically in both dimension slots (arguments 3 and 4 of the
`wb_command -cifti-smoothing` invocation). -/
theorem FWHM2Sigma_conversion :
    (∀ f : ℝ, FWHM2Sigma f = f / (2 * Real.sqrt (2 * Real.log 2))) ∧
    |FWHM2Sigma 8 - 3.3973| < 0.001 ∧
    (∀ (sigmaOf : String → String) (fs : String → Bool) (s : UserSettings)
        (temp_dir : String), fs (pre_dtseries_sm s) = false →
      ∃ cmd, (get_smoothed_dtseries_file sigmaOf fs s temp_dir).2 = [cmd] ∧
        cmd.get? 3 = some (sigmaOf s.fwhm) ∧
        cmd.get? 4 = some (sigmaOf s.fwhm)) := by
  refine ⟨fun f => rfl, ?_, ?_⟩
  · have hs := sqrtTwoLogTwo_bounds
    have hpos : (0 : ℝ) < 2 * Real.sqrt (2 * Real.log 2) := by nlinarith [hs.1]
    rw [abs_lt]
    constructor
    · have hlow : (3.3963 : ℝ) < 8 / (2 * Real.sqrt (2 * Real.log 2)) := by
        rw [lt_div_iff₀ hpos]
        nlinarith [hs.2]
      simp only [FWHM2Sigma]
      linarith
    · have hhigh : 8 / (2 * Real.sqrt (2 * Real.log 2)) < (3.3983 : ℝ) := by
        rw [div_lt_iff₀ hpos]
        nlinarith [hs.1]
      simp only [FWHM2Sigma]
      linarith
  · intro sigmaOf fs s temp_dir h
    have hcmds : (get_smoothed_dtseries_file sigmaOf fs s temp_dir).2 =
        [["wb_command", "-cifti-smoothing", s.dtseries_s0, sigmaOf s.fwhm,
          sigmaOf s.fwhm, "COLUMN",
          pyJoin temp_dir [smoothedName s.fmri_name s.fwhm], "-left-surface",
          pyJoin (pyJoin s.hcp_dir [s.subject, "MNINonLinear", s.surf_mesh])
            [s.subject ++ ".L.midthickness." ++ s.surf_mesh ++ ".surf.gii"],
          "-right-surface",
          pyJoin (pyJoin s.hcp_dir [s.subject, "MNINonLinear", s.surf_mesh])
            [s.subject ++ ".R.midthickness." ++ s.surf_mesh ++
              ".surf.gii"]]] := by
      simp only [get_smoothed_dtseries_file]
      rw [if_neg (by simp [h])]
    exact ⟨_, hcmds, rfl, rfl⟩

/-- Closed instance of `FWHM2Sigma_conversion`: the numeric bound at FWHM
8 together with the equal sigma argument slots at concrete inputs. -/
theorem FWHM2Sigma_conversion_witness :
    |FWHM2Sigma 8 - 3.3973| < 0.001 ∧
    ∃ cmd, (get_smoothed_dtseries_file (fun _ => "3.39") (fun _ => false)
        ⟨"/data", "sub01", "rest", "8",
          "/data/sub01/MNINonLinear/Results/rest/rest_Atlas_s0.dtseries.nii",
          "32k_fs_LR"⟩ "/tmp/scratch").2 = [cmd] ∧
      cmd.get? 3 = some "3.39" ∧ cmd.get? 4 = some "3.39" :=
  ⟨FWHM2Sigma_conversion.2.1,
    FWHM2Sigma_conversion.2.2 (fun _ => "3.39") (fun _ => false)
      ⟨"/data", "sub01", "rest", "8",
        "/data/sub01/MNINonLinear/Results/rest/rest_Atlas_s0.dtseries.nii",
        "32k_fs_LR"⟩ "/tmp/scratch" rfl⟩

/-- C3: for a template holding only the three tokens of reference R, with
the file `/a/b/c.nii.gz` and the scene file `/a/out/scene.scene`, and a
file system in which `/a/b` is already canonical (realpath leaves it
unchanged), the full-reference substitution yields the canonical absolute
directory for R_ABSPATH, the relative path `../b` for R_RELPATH, and the
base name `c.nii.gz` (extension included) for R_BASE. -/
theorem replace_all_references_round_trip (realpath : String → String)
    (h : realpath "/a/b" = "/a/b") :
    replace_all_references realpath "R_ABSPATH R_RELPATH R_BASE" "R"
      "/a/b/c.nii.gz" "/a/out/scene.scene" = "/a/b ../b c.nii.gz" := by
  simp only [replace_all_references, replace_dir_references]
  rw [show pyDirname "/a/b/c.nii.gz" = "/a/b" from by decide, h]
  decide

/-- Closed instance of `replace_all_references_round_trip` with the
identity realpath (no symlinks anywhere). -/
theorem replace_all_references_round_trip_witness :
    replace_all_references id "R_ABSPATH R_RELPATH R_BASE" "R"
      "/a/b/c.nii.gz" "/a/out/scene.scene" = "/a/b ../b c.nii.gz" :=
  replace_all_references_round_trip id rfl

/-- C8: for every template text, the engine's substitutions replace only
the literal, case-sensitive tokens and leave every other character
unchanged: (i) replacing a token occurrence amid arbitrary surrounding
text keeps the preceding text intact and continues in the following
text; (ii)-(iii) a token absent from the text makes the directory- and
full-reference substitutions no-ops (not errors); (iv) a
directory-reference substitution on an arbitrary template around one
ABSPATH token rewrites exactly that token; (v) a placeholder covered by
no substitution, amid arbitrary surrounding text containing none of the
engine's tokens, survives the whole personalization pass literally; and
(vi) in a concrete template mixing a covered token with an uncovered
placeholder, the covered token is substituted while the uncovered
placeholder remains literally in the output. -/
theorem substitution_frame_properties :
    (∀ u pat v rep : String, pat ≠ "" →
      containsTok pat.data (u.data ++ pat.data.dropLast) = false →
      strReplace (u ++ pat ++ v) pat rep = u ++ rep ++ strReplace v pat rep) ∧
    (∀ (realpath : String → String) (t pfx d sc : String),
      strContains t (pfx ++ "_ABSPATH") = false →
      strContains t (pfx ++ "_RELPATH") = false →
      replace_dir_references realpath t pfx d sc = t) ∧
    (∀ (realpath : String → String) (t pfx f sc : String),
      strContains t (pfx ++ "_ABSPATH") = false →
      strContains t (pfx ++ "_RELPATH") = false →
      strContains t (pfx ++ "_BASE") = false →
      replace_all_references realpath t pfx f sc = t) ∧
    (∀ (realpath : String → String) (u v pfx d sc : String),
      containsTok (pfx ++ "_ABSPATH").data
        (u.data ++ (pfx ++ "_ABSPATH").data.dropLast) = false →
      strContains v (pfx ++ "_ABSPATH") = false →
      strContains (u ++ realpath d ++ v) (pfx ++ "_RELPATH") = false →
      replace_dir_references realpath (u ++ (pfx ++ "_ABSPATH") ++ v) pfx
        d sc = u ++ realpath d ++ v) ∧
    (∀ (realpath : String → String) (s : UserSettings)
        (scene sbref sm P u v : String),
      (∀ tok ∈ engineTokens, strContains (u ++ P ++ v) tok = false) →
      modify_template_contents realpath (u ++ P ++ v) s scene sbref sm =
        u ++ P ++ v) ∧
    modify_template_contents id
      "pre SURFS_SUBJECT mid UNCOVERED_PLACEHOLDER post"
      ⟨"/data", "sub01", "rest", "8", "/d/s0.dtseries.nii", "32k_fs_LR"⟩
      "/sc/f.scene" "/t/sbref.nii.gz" "/tmp/rest_Atlas_s8.dtseries.nii" =
      "pre sub01 mid UNCOVERED_PLACEHOLDER post" := by
  have hdir : ∀ (realpath : String → String) (t pfx d sc : String),
      strContains t (pfx ++ "_ABSPATH") = false →
      strContains t (pfx ++ "_RELPATH") = false →
      replace_dir_references realpath t pfx d sc = t := by
    intro realpath t pfx d sc hA hR
    simp only [replace_dir_references]
    rw [strReplace_of_not_contains t _ _ hA,
      strReplace_of_not_contains t _ _ hR]
  have hall : ∀ (realpath : String → String) (t pfx f sc : String),
      strContains t (pfx ++ "_ABSPATH") = false →
      strContains t (pfx ++ "_RELPATH") = false →
      strContains t (pfx ++ "_BASE") = false →
      replace_all_references realpath t pfx f sc = t := by
    intro realpath t pfx f sc hA hR hB
    simp only [replace_all_references]
    rw [hdir realpath t pfx _ sc hA hR,
      strReplace_of_not_contains t _ _ hB]
  have hdirframe : ∀ (realpath : String → String) (u v pfx d sc : String),
      containsTok (pfx ++ "_ABSPATH").data
        (u.data ++ (pfx ++ "_ABSPATH").data.dropLast) = false →
      strContains v (pfx ++ "_ABSPATH") = false →
      strContains (u ++ realpath d ++ v) (pfx ++ "_RELPATH") = false →
      replace_dir_references realpath (u ++ (pfx ++ "_ABSPATH") ++ v) pfx
        d sc = u ++ realpath d ++ v := by
    intro realpath u v pfx d sc hstraddle hAv hR
    simp only [replace_dir_references]
    rw [strReplace_frame u (pfx ++ "_ABSPATH") v (realpath d)
        (append_ne_empty_right pfx "_ABSPATH" (by decide)) hstraddle,
      strReplace_of_not_contains v (pfx ++ "_ABSPATH") (realpath d) hAv,
      strReplace_of_not_contains (u ++ realpath d ++ v)
        (pfx ++ "_RELPATH") _ hR]
  have hsurv : ∀ (realpath : String → String) (s : UserSettings)
      (scene sbref sm P u v : String),
      (∀ tok ∈ engineTokens, strContains (u ++ P ++ v) tok = false) →
      modify_template_contents realpath (u ++ P ++ v) s scene sbref sm =
        u ++ P ++ v := by
    intro realpath s scene sbref sm P u v hfree
    have key : ∀ tok rep : String, strContains (u ++ P ++ v) tok = false →
        strReplace (u ++ P ++ v) tok rep = u ++ P ++ v :=
      fun tok rep h => strReplace_of_not_contains _ _ _ h
    simp only [modify_template_contents, replace_all_references,
      replace_dir_references]
    rw [key "SURFS_SUBJECT" _ (hfree _ (by decide)),
      key "SURFS_MESHNAME" _ (hfree _ (by decide)),
      key ("SURFSDIR" ++ "_ABSPATH") _ (hfree _ (by decide)),
      key ("SURFSDIR" ++ "_RELPATH") _ (hfree _ (by decide)),
      key ("T1W" ++ "_ABSPATH") _ (hfree _ (by decide)),
      key ("T1W" ++ "_RELPATH") _ (hfree _ (by decide)),
      key ("T1W" ++ "_BASE") _ (hfree _ (by decide)),
      key ("SBREF" ++ "_ABSPATH") _ (hfree _ (by decide)),
      key ("SBREF" ++ "_RELPATH") _ (hfree _ (by decide)),
      key ("SBREF" ++ "_BASE") _ (hfree _ (by decide)),
      key ("S0DTSERIES" ++ "_ABSPATH") _ (hfree _ (by decide)),
      key ("S0DTSERIES" ++ "_RELPATH") _ (hfree _ (by decide)),
      key ("S0DTSERIES" ++ "_BASE") _ (hfree _ (by decide)),
      key ("SMDTSERIES" ++ "_ABSPATH") _ (hfree _ (by decide)),
      key ("SMDTSERIES" ++ "_RELPATH") _ (hfree _ (by decide)),
      key "SMDTSERIES_BASENOEXT" _ (hfree _ (by decide))]
  exact ⟨fun u pat v rep hp hs => strReplace_frame u pat v rep hp hs,
    hdir, hall, hdirframe, hsurv, by decide⟩

/-- Closed instances of `substitution_frame_properties`: a token amid
other text is replaced with the surrounding text intact, token-free
texts pass through both operations unchanged, a directory-reference
substitution on a mixed template rewrites exactly the token, and an
uncovered placeholder amid other text survives the full pass. -/
theorem substitution_frame_properties_witness :
    strReplace ("text " ++ "TOK" ++ " more") "TOK" "VAL" = "text VAL more" ∧
    replace_dir_references id "plain text" "R" "/d" "/s/f.scene" =
      "plain text" ∧
    replace_all_references id "plain text" "R" "/d/f.nii" "/s/f.scene" =
      "plain text" ∧
    replace_dir_references id ("x " ++ ("R" ++ "_ABSPATH") ++ " y") "R"
      "/d" "/s/f.scene" = "x /d y" ∧
    modify_template_contents id ("a " ++ "UNCOVERED_PLACEHOLDER" ++ " b")
      ⟨"/data", "sub01", "rest", "8", "/d/s0.dtseries.nii", "32k_fs_LR"⟩
      "/sc/f.scene" "/t/sbref.nii.gz" "/tmp/rest_Atlas_s8.dtseries.nii" =
      "a UNCOVERED_PLACEHOLDER b" := by
  refine ⟨?_, ?_, ?_, ?_, ?_⟩
  · exact (substitution_frame_properties.1 "text " "TOK" " more" "VAL"
      (by decide) (by decide)).trans (by decide)
  · exact substitution_frame_properties.2.1 id "plain text" "R" "/d"
      "/s/f.scene" (by decide) (by decide)
  · exact substitution_frame_properties.2.2.1 id "plain text" "R"
      "/d/f.nii" "/s/f.scene" (by decide) (by decide) (by decide)
  · exact (substitution_frame_properties.2.2.2.1 id "x " " y" "R" "/d"
      "/s/f.scene" (by decide) (by decide) (by decide)).trans (by decide)
  · exact (substitution_frame_properties.2.2.2.2.1 id
      ⟨"/data", "sub01", "rest", "8", "/d/s0.dtseries.nii", "32k_fs_LR"⟩
      "/sc/f.scene" "/t/sbref.nii.gz" "/tmp/rest_Atlas_s8.dtseries.nii"
      "UNCOVERED_PLACEHOLDER" "a " " b" (by decide)).trans (by decide)

/-- C9: the value substituted for the SMDTSERIES_BASENOEXT placeholder is
the smoothed file's base name with every occurrence of the substring
".dtseries.nii" removed (a replace of all occurrences, not a trailing
extension strip); for base names not containing ".dtseries.nii" the value
is the base name unchanged; and on a name with an interior occurrence the
interior occurrence is removed too. -/
theorem smdtseries_basenoext_replace_semantics :
    (∀ (realpath : String → String) (s : UserSettings)
        (scene sbref sm : String),
      modify_template_contents realpath "SMDTSERIES_BASENOEXT" s scene
        sbref sm = strReplace (pyBasename sm) ".dtseries.nii" "") ∧
    (∀ base : String, strContains base ".dtseries.nii" = false →
      strReplace base ".dtseries.nii" "" = base) ∧
    strReplace "a.dtseries.nii.extra.dtseries.nii" ".dtseries.nii" "" =
      "a.extra" := by
  refine ⟨?_, fun base hb => strReplace_of_not_contains base _ "" hb,
    by decide⟩
  intro realpath s scene sbref sm
  have hdir : ∀ (rp : String → String) (pfx d sc : String),
      strContains "SMDTSERIES_BASENOEXT" (pfx ++ "_ABSPATH") = false →
      strContains "SMDTSERIES_BASENOEXT" (pfx ++ "_RELPATH") = false →
      replace_dir_references rp "SMDTSERIES_BASENOEXT" pfx d sc =
        "SMDTSERIES_BASENOEXT" := by
    intro rp pfx d sc hA hR
    simp only [replace_dir_references]
    rw [strReplace_of_not_contains _ _ _ hA,
      strReplace_of_not_contains _ _ _ hR]
  have hall : ∀ (rp : String → String) (pfx f sc : String),
      strContains "SMDTSERIES_BASENOEXT" (pfx ++ "_ABSPATH") = false →
      strContains "SMDTSERIES_BASENOEXT" (pfx ++ "_RELPATH") = false →
      strContains "SMDTSERIES_BASENOEXT" (pfx ++ "_BASE") = false →
      replace_all_references rp "SMDTSERIES_BASENOEXT" pfx f sc =
        "SMDTSERIES_BASENOEXT" := by
    intro rp pfx f sc hA hR hB
    simp only [replace_all_references]
    rw [hdir rp pfx _ sc hA hR, strReplace_of_not_contains _ _ _ hB]
  simp only [modify_template_contents]
  rw [strReplace_of_not_contains "SMDTSERIES_BASENOEXT" "SURFS_SUBJECT" _
      (by decide),
    strReplace_of_not_contains "SMDTSERIES_BASENOEXT" "SURFS_MESHNAME" _
      (by decide),
    hdir realpath "SURFSDIR" _ scene (by decide) (by decide),
    hall realpath "T1W" _ scene (by decide) (by decide) (by decide),
    hall realpath "SBREF" sbref scene (by decide) (by decide) (by decide),
    hall realpath "S0DTSERIES" s.dtseries_s0 scene (by decide) (by decide)
      (by decide),
    hdir realpath "SMDTSERIES" _ scene (by decide) (by decide),
    strReplace_whole "SMDTSERIES_BASENOEXT" _ (by decide)]

/-- Closed instance of `smdtseries_basenoext_replace_semantics`: the
engine substitutes `rest_Atlas_s8` for the placeholder, and a base name
without the substring passes through unchanged. -/
theorem smdtseries_basenoext_replace_semantics_witness :
    modify_template_contents id "SMDTSERIES_BASENOEXT"
      ⟨"/data", "sub01", "rest", "8", "/d/s0.dtseries.nii", "32k_fs_LR"⟩
      "/sc/f.scene" "/t/sbref.nii.gz" "/tmp/rest_Atlas_s8.dtseries.nii" =
      "rest_Atlas_s8" ∧
    strReplace "rest_SBRef.nii.gz" ".dtseries.nii" "" =
      "rest_SBRef.nii.gz" :=
  ⟨(smdtseries_basenoext_replace_semantics.1 id
      ⟨"/data", "sub01", "rest", "8", "/d/s0.dtseries.nii", "32k_fs_LR"⟩
      "/sc/f.scene" "/t/sbref.nii.gz"
      "/tmp/rest_Atlas_s8.dtseries.nii").trans (by decide),
    smdtseries_basenoext_replace_semantics.2.1 "rest_SBRef.nii.gz"
      (by decide)⟩

/-- C10: `replace_dir_references` computes both the ABSPATH and the
RELPATH replacement values from the symlink-resolved canonical form of
the directory (the RELPATH value being
relpath(realpath(dir_path), dirname(scene_file))), while the scene file's
own directory is used as given; with `/a/b` a symlink to `/x/y` and
`/a/out` a symlink to `/z`, the substituted values are `/x/y` and
`../../x/y` (computed against `/a/out` as given; canonicalizing the scene
directory would have produced a different relative path). -/
theorem replace_dir_references_realpath_semantics :
    (∀ (realpath : String → String) (t pfx d sc : String),
      replace_dir_references realpath t pfx d sc =
        dirSubstSpec realpath t pfx d sc) ∧
    replace_dir_references symlinkRealpath "R_ABSPATH R_RELPATH" "R"
      "/a/b" "/a/out/scene.scene" = "/x/y ../../x/y" ∧
    pyRelpath (symlinkRealpath "/a/b")
      (pyDirname "/a/out/scene.scene") = "../../x/y" ∧
    pyRelpath (symlinkRealpath "/a/b")
      (symlinkRealpath (pyDirname "/a/out/scene.scene")) ≠ "../../x/y" :=
  ⟨fun realpath t pfx d sc => rfl, by decide, by decide, by decide⟩

end CiftiVisFmri
